import Mathlib

/-!
Verification development for the GLEIF LEI matcher (`src/gleif_matcher.py`).

The Python module is embedded shallowly over `List Char` / `String`:

* pandas DataFrames of reference records become `List GRow` (the row index of
  a frame is the list position);
* the three lookup dictionaries built by `build_indices` become association
  lists, which preserve CPython's dict insertion-order iteration semantics;
* calls into the Unicode tables of `unicodedata` / `str.upper` /
  `str.lower` / regex character classes are parameters, bundled in `UTab`.
  Theorems that need a fact about those tables take it as an explicit
  hypothesis (for instance: NFKC followed by `upper` fixes a string of ASCII
  uppercase alphanumerics).  `asciiTab` instantiates the bundle with the
  restriction of the real tables to ASCII data, which is exactly what every
  concrete scenario below exercises.
-/

namespace Gleif

/-- Python `str.isascii` on one character. -/
def isAsciiCh (c : Char) : Bool := c.toNat ≤ 127

/-- ASCII decimal digit. -/
def isDigitCh (c : Char) : Bool := 48 ≤ c.toNat && c.toNat ≤ 57

/-- ASCII uppercase letter. -/
def isUpperCh (c : Char) : Bool := 65 ≤ c.toNat && c.toNat ≤ 90

/-- ASCII lowercase letter. -/
def isLowerCh (c : Char) : Bool := 97 ≤ c.toNat && c.toNat ≤ 122

/-- Character kept by the final `[^0-9A-Z]` filter of `normalize_rcs`. -/
def isUpAlnum (c : Char) : Bool := isDigitCh c || isUpperCh c

/-- ASCII letter or digit. -/
def isAsciiAlnum (c : Char) : Bool := isDigitCh c || isUpperCh c || isLowerCh c

/-- Uppercase an ASCII letter, leave every other character unchanged. -/
def asciiUpper (c : Char) : Char :=
  if isLowerCh c then Char.ofNat (c.toNat - 32) else c

/-- Lowercase an ASCII letter, leave every other character unchanged. -/
def asciiLower (c : Char) : Char :=
  if isUpperCh c then Char.ofNat (c.toNat + 32) else c

/-- Bundle of the Unicode-dependent primitives the Python module calls.
`nfkcUp` is `unicodedata.normalize("NFKC", ·)` followed by `str.upper`;
`isNd` is `unicodedata.category(·) == "Nd"`; `digitVal` is
`unicodedata.digit` (a decimal digit value, hence `Fin 10`); `upper` and
`lower` are `str.upper` / `str.lower`; `deMark` is NFD decomposition
followed by removal of the combining marks (category Mn); `isWord` is the
regex class `\w`; `isSpace` is the regex class `\s`, also used by
`str.strip`. -/
structure UTab where
  nfkcUp : List Char → List Char
  isNd : Char → Bool
  digitVal : Char → Fin 10
  upper : List Char → List Char
  lower : List Char → List Char
  deMark : List Char → List Char
  isWord : Char → Bool
  isSpace : Char → Bool

/-- The six characters of `\s` over ASCII. -/
def asciiSpace (c : Char) : Bool :=
  c = ' ' || c = '\t' || c = '\n' || c = '\x0b' || c = '\x0c' || c = '\r'

/-- Restriction of the Unicode tables to ASCII data: on ASCII input every
component agrees with the CPython behaviour (NFKC is the identity on ASCII,
`str.upper` maps `a`-`z` to `A`-`Z`, no ASCII character has category Nd or
Mn, `\w` is alphanumerics plus underscore, `\s` is the six ASCII blanks). -/
def asciiTab : UTab where
  nfkcUp := List.map asciiUpper
  isNd := fun _ => false
  digitVal := fun _ => ⟨0, by decide⟩
  upper := List.map asciiUpper
  lower := List.map asciiLower
  deMark := id
  isWord := fun c => isAsciiAlnum c || c = '_'
  isSpace := asciiSpace

/-- Python `str.strip` on a character list. -/
def pyStripL (tab : UTab) (l : List Char) : List Char :=
  ((l.dropWhile tab.isSpace).reverse.dropWhile tab.isSpace).reverse

/-- Python `str.strip` on a string. -/
def pyStrip (tab : UTab) (s : String) : String :=
  String.mk (pyStripL tab s.data)

/-- Python `str.upper` on a string. -/
def strUpper (tab : UTab) (s : String) : String := String.mk (tab.upper s.data)

/-- Python `a in b` (contiguous-substring test): `preB a b` is `a` being an
initial segment of `b`. -/
def preB : List Char → List Char → Bool
  | [], _ => true
  | _ :: _, [] => false
  | a :: as, b :: bs => a = b && preB as bs

/-- Python `a in b`: `a` occurs contiguously inside `b`. -/
def subB (a : List Char) : List Char → Bool
  | [] => preB a []
  | c :: cs => preB a (c :: cs) || subB a cs

/-- Substring test on strings (Python `in`). -/
def strSub (a b : String) : Bool := subB a.data b.data

/-- Length of the maximal initial run of characters satisfying `p`. -/
def runLen (p : Char → Bool) : List Char → Nat
  | [] => 0
  | c :: cs => if p c then runLen p cs + 1 else 0

/-- Candidate lengths, longest first, that a greedy `+`-quantifier over the
class `p` tries at the head of `l` (the backtracking order of the regex
engine). -/
def descLens (p : Char → Bool) (l : List Char) : List Nat :=
  (List.range (runLen p l)).reverse.map (· + 1)

/-- Characters admitted by the class `[A-ZÉÈÀÂÊÎÔÙÛÇ\s]` of the
`"RCS Ville"` regex of `normalize_rcs`. -/
def rcsClassCh (tab : UTab) (c : Char) : Bool :=
  isUpperCh c || c = 'É' || c = 'È' || c = 'À' || c = 'Â' || c = 'Ê' ||
    c = 'Î' || c = 'Ô' || c = 'Ù' || c = 'Û' || c = 'Ç' || tab.isSpace c

/-- Length matched by `\s+[A-ZÉÈÀÂÊÎÔÙÛÇ\s]+\s+` at the head of `r`, under
the leftmost-greedy backtracking semantics of `re` (each `+` tries its
longest extent first; the overall first success wins). -/
def rcsTailMatch (tab : UTab) (r : List Char) : Option Nat :=
  (descLens tab.isSpace r).findSome? fun a =>
    (descLens (rcsClassCh tab) (r.drop a)).findSome? fun b =>
      let c := runLen tab.isSpace ((r.drop a).drop b)
      if 1 ≤ c then some (a + b + c) else none

/-- Model of `re.sub(r"^RCS\s+[A-ZÉÈÀÂÊÎÔÙÛÇ\s]+\s+", "", ·)`: the pattern is
anchored, so at most the single match at position 0 is removed. -/
def stripRcsPre (tab : UTab) (l : List Char) : List Char :=
  if l.take 3 = ['R', 'C', 'S'] then
    match rcsTailMatch tab (l.drop 3) with
    | some n => (l.drop 3).drop n
    | none => l
  else l

/-- Function `normalize_rcs`: NFKC + upper, remaining non-ASCII decimal digits to
ASCII, removal of a leading `"RCS Ville "`, strip, then keep only
`[0-9A-Z]`.  Empty or blank input yields the empty string. -/
def normalize_rcs (tab : UTab) (s : String) : String :=
  if pyStrip tab s = "" then "" else
  let r1 := tab.nfkcUp s.data
  let r2 := r1.map fun c =>
    if tab.isNd c && !isAsciiCh c then Char.ofNat (48 + (tab.digitVal c).val) else c
  let r3 := pyStripL tab (stripRcsPre tab r2)
  String.mk (r3.filter isUpAlnum)

/-- One item of a legal-form alternative of `_LEGAL_FORMS_RE`: a letter
(matched case-insensitively), an optional literal dot `\.?`, or an optional
letter such as the `U?` of `S\.?A\.?S\.?U?`. -/
inductive RItem where
  | ch (c : Char)
  | dotOpt
  | chOpt (c : Char)
deriving DecidableEq

/-- Match the items of one alternative at the head of `l`, returning the
number of characters consumed.  `lastW` is the word-character status of the
character preceding the current position (used for the trailing `\b` when
the item list is exhausted).  Optional items are greedy: the consuming
branch is tried first, the engine backtracks to the skipping branch. -/
def matchItems (tab : UTab) : List RItem → Bool → List Char → Option Nat
  | [], lastW, l =>
    let nextW := match l with | [] => false | c :: _ => tab.isWord c
    if lastW ≠ nextW then some 0 else none
  | .ch c :: rest, _, x :: xs =>
    if asciiUpper x = c then (matchItems tab rest (tab.isWord x) xs).map (· + 1) else none
  | .ch _ :: _, _, [] => none
  | .dotOpt :: rest, lastW, l =>
    match l with
    | '.' :: xs =>
      match matchItems tab rest (tab.isWord '.') xs with
      | some k => some (k + 1)
      | none => matchItems tab rest lastW ('.' :: xs)
    | _ => matchItems tab rest lastW l
  | .chOpt c :: rest, lastW, l =>
    match l with
    | x :: xs =>
      if asciiUpper x = c then
        match matchItems tab rest (tab.isWord x) xs with
        | some k => some (k + 1)
        | none => matchItems tab rest lastW (x :: xs)
      else matchItems tab rest lastW (x :: xs)
    | [] => matchItems tab rest lastW []

/-- Encode a legal-form abbreviation: every letter is followed by `\.?`. -/
def dotted (cs : List Char) : List RItem :=
  cs.flatMap fun c => [RItem.ch c, RItem.dotOpt]

/-- The alternatives of `_LEGAL_FORMS_RE`, in the order of the pattern. -/
def LEGAL_ALTS : List (List RItem) :=
  [ dotted ['S', 'A', 'S'] ++ [RItem.chOpt 'U']
  , dotted ['S', 'A', 'R', 'L']
  , dotted ['S', 'A']
  , dotted ['S', 'N', 'C']
  , dotted ['S', 'C', 'I']
  , dotted ['E', 'U', 'R', 'L']
  , dotted ['G', 'I', 'E']
  , dotted ['S', 'C', 'M']
  , dotted ['S', 'C', 'P']
  , dotted ['S', 'C', 'S']
  , dotted ['S', 'C']
  , dotted ['G', 'M', 'B', 'H']
  , dotted ['A', 'G']
  , dotted ['S', 'E']
  , dotted ['L', 'T', 'D']
  , dotted ['P', 'L', 'C']
  , dotted ['I', 'N', 'C']
  , dotted ['L', 'L', 'C']
  , dotted ['B', 'V']
  , dotted ['N', 'V']
  , dotted ['S', 'P', 'A']
  , dotted ['S', 'R', 'L']
  ]

/-- Fueled worker for `legalScan`; every step consumes at least one input
character, so any fuel of at least `l.length` gives the untruncated scan
(structural recursion on the fuel keeps the function kernel-reducible). -/
def legalScanF (tab : UTab) : Nat → Bool → List Char → List Char
  | 0, _, _ => []
  | _ + 1, _, [] => []
  | fuel + 1, prevW, c :: cs =>
    let currW := tab.isWord c
    if prevW ≠ currW then
      match LEGAL_ALTS.findSome? (fun alt => matchItems tab alt prevW (c :: cs)) with
      | some n =>
        let lastW := tab.isWord (((c :: cs).take n).getLastD c)
        ' ' :: legalScanF tab fuel lastW (cs.drop (n - 1))
      | none => c :: legalScanF tab fuel currW cs
    else c :: legalScanF tab fuel currW cs

/-- Model of `_LEGAL_FORMS_RE.sub(" ", ·)`: scan left to right; at each position with
a word boundary try the alternatives in pattern order; replace a match by a
single space and resume after it (boundaries keep referring to the original
characters). -/
def legalScan (tab : UTab) (prevW : Bool) (l : List Char) : List Char :=
  legalScanF tab l.length prevW l

/-- Model of `re.sub(r"\s+", " ", ·)`: collapse every whitespace run to one space.
The flag records whether the previous character was part of a run. -/
def collapseWs (tab : UTab) : Bool → List Char → List Char
  | _, [] => []
  | inRun, c :: cs =>
    if tab.isSpace c then
      if inRun then collapseWs tab true cs else ' ' :: collapseWs tab true cs
    else c :: collapseWs tab false cs

/-- Function `normalize_name`: upper, NFD + strip combining marks, remove legal-form
abbreviations, turn every character outside `[A-Z0-9\s]` into a space,
collapse whitespace, strip. -/
def normalize_name (tab : UTab) (s : String) : String :=
  if pyStrip tab s = "" then "" else
  let u := tab.deMark (tab.upper s.data)
  let lf := legalScan tab false u
  let p := lf.map fun c => if isUpperCh c || isDigitCh c || tab.isSpace c then c else ' '
  String.mk (pyStripL tab (collapseWs tab false p))

/-- Table `COUNTRY_MAP`, in source order (association list; `.get` is the first
hit, duplicates shadowed later never win, matching dict construction where
the later literal key would overwrite — the source has no duplicate keys). -/
def COUNTRY_MAP : List (String × String) :=
  [ ("france", "FR"), ("fr", "FR")
  , ("allemagne", "DE"), ("germany", "DE"), ("de", "DE")
  , ("italie", "IT"), ("italy", "IT"), ("it", "IT")
  , ("espagne", "ES"), ("spain", "ES"), ("es", "ES")
  , ("belgique", "BE"), ("belgium", "BE"), ("be", "BE")
  , ("suisse", "CH"), ("switzerland", "CH"), ("ch", "CH")
  , ("luxembourg", "LU"), ("lu", "LU")
  , ("pays-bas", "NL"), ("netherlands", "NL"), ("nl", "NL"), ("hollande", "NL")
  , ("royaume-uni", "GB"), ("united kingdom", "GB"), ("uk", "GB"), ("gb", "GB")
  , ("angleterre", "GB"), ("england", "GB")
  , ("etats-unis", "US"), ("états-unis", "US"), ("united states", "US"), ("usa", "US"), ("us", "US")
  , ("portugal", "PT"), ("pt", "PT")
  , ("autriche", "AT"), ("austria", "AT"), ("at", "AT")
  , ("suede", "SE"), ("suède", "SE"), ("sweden", "SE"), ("se", "SE")
  , ("danemark", "DK"), ("denmark", "DK"), ("dk", "DK")
  , ("norvege", "NO"), ("norvège", "NO"), ("norway", "NO"), ("no", "NO")
  , ("finlande", "FI"), ("finland", "FI"), ("fi", "FI")
  , ("pologne", "PL"), ("poland", "PL"), ("pl", "PL")
  , ("republique tcheque", "CZ"), ("czech republic", "CZ"), ("czechia", "CZ"), ("cz", "CZ")
  , ("irlande", "IE"), ("ireland", "IE"), ("ie", "IE")
  , ("grece", "GR"), ("grèce", "GR"), ("greece", "GR"), ("gr", "GR")
  , ("roumanie", "RO"), ("romania", "RO"), ("ro", "RO")
  , ("hongrie", "HU"), ("hungary", "HU"), ("hu", "HU")
  , ("japon", "JP"), ("japan", "JP"), ("jp", "JP")
  , ("chine", "CN"), ("china", "CN"), ("cn", "CN")
  , ("canada", "CA"), ("ca", "CA")
  , ("australie", "AU"), ("australia", "AU"), ("au", "AU")
  , ("singapour", "SG"), ("singapore", "SG"), ("sg", "SG")
  , ("emirats arabes unis", "AE"), ("uae", "AE"), ("ae", "AE")
  , ("monaco", "MC"), ("mc", "MC")
  , ("liechtenstein", "LI"), ("li", "LI")
  , ("andorre", "AD"), ("andorra", "AD"), ("ad", "AD")
  , ("ile maurice", "MU"), ("mauritius", "MU"), ("mu", "MU")
  , ("maroc", "MA"), ("morocco", "MA"), ("ma", "MA")
  ]

/-- First-hit lookup in an association list (Python `dict.get`). -/
def alGet {α : Type} (k : String) : List (String × α) → Option α
  | [] => none
  | (k', v) :: t => if k' = k then some v else alGet k t

/-- Pattern `_ISO_PATTERN`: `^[A-Z]{2}$`. -/
def isoPat (s : String) : Bool :=
  match s.data with
  | [a, b] => isUpperCh a && isUpperCh b
  | _ => false

/-- Function `country_to_iso`: blank input yields `""`; a strip+upper result matching
`^[A-Z]{2}$` is returned as-is; otherwise the lowercased value is looked up
in `COUNTRY_MAP`, accent-stripped form first. -/
def country_to_iso (tab : UTab) (s : String) : String :=
  if pyStrip tab s = "" then "" else
  let raw := strUpper tab (pyStrip tab s)
  if isoPat raw then raw else
  let key := String.mk (tab.lower raw.data)
  let keyNoAcc := String.mk (tab.deMark key.data)
  ((alGet keyNoAcc COUNTRY_MAP).orElse fun _ => alGet key COUNTRY_MAP).getD ""

/-- Worker for `splitWs`: `cur` is the current token, reversed. -/
def splitWsGo (tab : UTab) (cur : List Char) : List Char → List (List Char)
  | [] => if cur.isEmpty then [] else [cur.reverse]
  | c :: cs =>
    if tab.isSpace c then
      if cur.isEmpty then splitWsGo tab [] cs
      else cur.reverse :: splitWsGo tab [] cs
    else splitWsGo tab (c :: cur) cs

/-- Split on whitespace runs, discarding empties (Python `str.split()`, as
used by the token-sort scorer). -/
def splitWs (tab : UTab) (l : List Char) : List (List Char) :=
  splitWsGo tab [] l

/-- Code-point lexicographic order on character lists (Python `<` on str). -/
def lexLe : List Char → List Char → Bool
  | [], _ => true
  | _ :: _, [] => false
  | a :: as, b :: bs =>
    if a.toNat < b.toNat then true
    else if a = b then lexLe as bs else false

/-- Insert into a sorted list, after existing entries that are `≤` (the
stable placement of Python `sorted`). -/
def sortIns (x : List Char) : List (List Char) → List (List Char)
  | [] => [x]
  | y :: ys => if lexLe y x then y :: sortIns x ys else x :: y :: ys

/-- Python `sorted` on a token list. -/
def sortToks (ts : List (List Char)) : List (List Char) :=
  ts.foldl (fun acc t => sortIns t acc) []

/-- Join tokens with a single space. -/
def joinSp : List (List Char) → List Char
  | [] => []
  | [t] => t
  | t :: ts => t ++ ' ' :: joinSp ts

/-- Fueled worker for `lcs`: each call strictly shrinks the combined length,
so any fuel of at least `|a| + |b|` computes the true value (structural
recursion on the fuel keeps the function kernel-reducible). -/
def lcsF : Nat → List Char → List Char → Nat
  | 0, _, _ => 0
  | _ + 1, [], _ => 0
  | _ + 1, _ :: _, [] => 0
  | fuel + 1, a :: as, b :: bs =>
    if a = b then lcsF fuel as bs + 1
    else max (lcsF fuel (a :: as) bs) (lcsF fuel as (b :: bs))

/-- Longest common subsequence length (the InDel distance of
`rapidfuzz.fuzz.ratio` is `|a| + |b| - 2·lcs a b`). -/
def lcs (a b : List Char) : Nat := lcsF (a.length + b.length) a b

/-- An exact rational similarity percentage, kept as an unreduced fraction
(`Rat` normalization does not reduce in the kernel, so comparisons are done
by cross-multiplication; `den` is positive for every value the model
produces). -/
structure Pct where
  num : Nat
  den : Nat
deriving DecidableEq

/-- The rational value of a `Pct`. -/
def Pct.toQ (p : Pct) : ℚ := (p.num : ℚ) / (p.den : ℚ)

/-- Strict order against a whole-number threshold: `p < t`. -/
def pctLtNat (p : Pct) (t : Nat) : Prop := p.num < t * p.den

/-- Non-strict order against a whole-number threshold: `t ≤ p`. -/
def pctGeNat (p : Pct) (t : Nat) : Prop := t * p.den ≤ p.num

/-- Strict order between two scores: `a < b`. -/
def pctLt (a b : Pct) : Prop := a.num * b.den < b.num * a.den

instance (p : Pct) (t : Nat) : Decidable (pctLtNat p t) :=
  inferInstanceAs (Decidable (p.num < t * p.den))

instance (p : Pct) (t : Nat) : Decidable (pctGeNat p t) :=
  inferInstanceAs (Decidable (t * p.den ≤ p.num))

instance (a b : Pct) : Decidable (pctLt a b) :=
  inferInstanceAs (Decidable (a.num * b.den < b.num * a.den))

/-- Integer truncation of a score (`int(score)` in Python, nonnegative
here). -/
def Pct.floor (p : Pct) : Nat := p.num / p.den

/-- Model of `fuzz.ratio`: normalized InDel similarity in percent, as an exact
fraction (`100` for two empty strings, as in rapidfuzz). -/
def ratioP (a b : List Char) : Pct :=
  if a.length + b.length = 0 then ⟨100, 1⟩
  else ⟨200 * lcs a b, a.length + b.length⟩

/-- Model of `fuzz.token_sort_ratio`: split both sides on whitespace, sort the
tokens, join with single spaces, then `fuzz.ratio`. -/
def token_sort_ratio (tab : UTab) (a b : String) : Pct :=
  ratioP (joinSp (sortToks (splitWs tab a.data))) (joinSp (sortToks (splitWs tab b.data)))

/-- Python `round` on the exact rational `num / den` (`den ≠ 0`): round half
to even.  The float evaluation in `search_by_rcs_fuzzy` agrees with the
exact rational at every reachable tie. -/
def pyRound (num den : Nat) : Nat :=
  let q := num / den
  let r := num % den
  if 2 * r < den then q
  else if den < 2 * r then q + 1
  else if q % 2 = 0 then q else q + 1

/-- One reference record after the rename to the logical `SLIM_COLUMNS`
schema and `fillna("")` (a pandas row of the internal DataFrame). -/
structure GRow where
  lei : String
  name : String
  country : String
  entity_status : String
  lei_status : String
  ra_id : String
  ra_entity : String
  renewal_date : String
deriving DecidableEq

/-- The `activeOnly` mask: `entity_status.upper() == "ACTIVE"` and
`lei_status.upper() == "ISSUED"` — the single conjunction used by
`load_gleif`, `_finalize_gleif_df`, `prepare_slim` and the in-loop status
checks of `match_companies`. -/
def activeOK (tab : UTab) (r : GRow) : Bool :=
  strUpper tab r.entity_status = "ACTIVE" && strUpper tab r.lei_status = "ISSUED"

/-- Apply the `activeOnly` filter to a table when the flag is set. -/
def applyActiveFilter (tab : UTab) (activeOnly : Bool) (rows : List GRow) : List GRow :=
  if activeOnly then rows.filter (activeOK tab) else rows

/-- Per-chunk body of the `load_gleif` CSV loop: rename the raw columns to
the logical schema, fill the missing logical columns and NaN cells with `""`
(all of which is the per-row map `f`, fixed by the single up-front header
detection), then apply the `activeOnly` mask. -/
def processChunk {α : Type} (tab : UTab) (f : α → GRow) (activeOnly : Bool)
    (chunk : List α) : List GRow :=
  applyActiveFilter tab activeOnly (chunk.map f)

/-- Function `load_gleif`, CSV path: process each chunk, drop the empty ones, and
concatenate with a dense 0-based index — on lists, simply the join (an
entirely filtered-out input yields the empty table with the logical
columns, not an exception). -/
def load_gleif {α : Type} (tab : UTab) (f : α → GRow) (activeOnly : Bool)
    (chunks : List (List α)) : List GRow :=
  (chunks.map (processChunk tab f activeOnly)).flatten

/-- Function `_finalize_gleif_df`: the unchunked path — same rename/fill, same mask,
then `reset_index(drop=True)` (the identity on the list model). -/
def finalize_gleif_df {α : Type} (tab : UTab) (f : α → GRow) (activeOnly : Bool)
    (rows : List α) : List GRow :=
  applyActiveFilter tab activeOnly (rows.map f)

/-- Model of `dict.setdefault(key, []).append(i)` on an insertion-ordered
association list. -/
def alAppend {α : Type} (k : String) (i : α) : List (String × List α) → List (String × List α)
  | [] => [(k, [i])]
  | (k', v) :: t => if k' = k then (k', v ++ [i]) :: t else (k', v) :: alAppend k i t

/-- Model of `dict[key] = i` on an insertion-ordered association list: overwrite in
place, or append a new key (CPython last-write-wins while keeping the
original insertion position). -/
def alSet (k : String) (i : Nat) : List (String × Nat) → List (String × Nat)
  | [] => [(k, i)]
  | (k', v) :: t => if k' = k then (k', i) :: t else (k', v) :: alSet k i t

/-- Nested `setdefault` for the name index. -/
def alAppend2 (c n : String) (i : Nat) :
    List (String × List (String × List Nat)) → List (String × List (String × List Nat))
  | [] => [(c, [(n, [i])])]
  | (c', v) :: t => if c' = c then (c', alAppend n i v) :: t else (c', v) :: alAppend2 c n i t

/-- The three indices of `build_indices`. -/
structure Indices where
  rcs_index : List (String × List Nat)
  name_index : List (String × List (String × List Nat))
  lei_index : List (String × Nat)
deriving DecidableEq

/-- First pass of `build_indices` (RCS and LEI indices), over the rows
paired with their positions. -/
def buildRcsLei (tab : UTab) :
    List (Nat × GRow) → List (String × List Nat) × List (String × Nat) →
    List (String × List Nat) × List (String × Nat)
  | [], acc => acc
  | (i, r) :: rest, (rcsI, leiI) =>
    let keyRcs := normalize_rcs tab r.ra_entity
    let rcsI := if keyRcs ≠ "" then alAppend keyRcs i rcsI else rcsI
    let keyLei := strUpper tab (pyStrip tab r.lei)
    let leiI := if keyLei ≠ "" then alSet keyLei i leiI else leiI
    buildRcsLei tab rest (rcsI, leiI)

/-- Second pass of `build_indices` (country → normalized name → rows). -/
def buildName (tab : UTab) :
    List (Nat × GRow) → List (String × List (String × List Nat)) →
    List (String × List (String × List Nat))
  | [], acc => acc
  | (i, r) :: rest, acc =>
    let c := strUpper tab (pyStrip tab r.country)
    let n := normalize_name tab r.name
    buildName tab rest (if c ≠ "" && n ≠ "" then alAppend2 c n i acc else acc)

/-- Function `build_indices`. -/
def build_indices (tab : UTab) (df : List GRow) : Indices :=
  let rows := df.enum
  let (rcsI, leiI) := buildRcsLei tab rows ([], [])
  { rcs_index := rcsI, name_index := buildName tab rows [], lei_index := leiI }

/-- Function `search_by_rcs`: exact lookup in the RCS index, first row of the entry
(`df.iloc[indices[0]]` — the partial positional access is modeled by the
`Option` chain; `build_indices` only produces nonempty in-range entries). -/
def search_by_rcs (rcs_norm : String) (rcs_index : List (String × List Nat))
    (df : List GRow) : Option GRow :=
  if rcs_norm = "" then none
  else match alGet rcs_norm rcs_index with
    | some idxs => idxs.head?.bind df.get?
    | none => none

/-- Loop body of `search_by_rcs_fuzzy` over the index entries, carrying
`(best_row, best_score)`.  A candidate key must be at least as long as the
input and at most 2 characters longer, contain the input as a contiguous
substring, and reach the threshold; a strictly better score replaces the
current best, so the first key attaining the maximum wins. -/
def fuzzyGo (rcs_norm : String) (df : List GRow) (threshold : Nat) :
    List (String × List Nat) → Option GRow × Nat → Option GRow × Nat
  | [], acc => acc
  | (key, idxs) :: rest, (bRow, bScore) =>
    let n := rcs_norm.length
    if key.length < n || decide (2 < key.length - n) then
      fuzzyGo rcs_norm df threshold rest (bRow, bScore)
    else if strSub rcs_norm key then
      let score := pyRound (n * 100) key.length
      if threshold ≤ score && bScore < score then
        fuzzyGo rcs_norm df threshold rest (idxs.head?.bind df.get?, score)
      else fuzzyGo rcs_norm df threshold rest (bRow, bScore)
    else fuzzyGo rcs_norm df threshold rest (bRow, bScore)

/-- Function `search_by_rcs_fuzzy`: containment-based approximate search on the RCS
index keys; inputs shorter than 4 characters return `(None, 0)` outright. -/
def search_by_rcs_fuzzy (rcs_norm : String) (rcs_index : List (String × List Nat))
    (df : List GRow) (threshold : Nat := 88) : Option GRow × Nat :=
  if rcs_norm = "" || decide (rcs_norm.length < 4) then (none, 0)
  else fuzzyGo rcs_norm df threshold rcs_index (none, 0)

/-- Function `search_by_lei`: direct lookup of `str(lei).strip().upper()`. -/
def search_by_lei (tab : UTab) (lei_val : String) (lei_index : List (String × Nat))
    (df : List GRow) : Option GRow :=
  let key := strUpper tab (pyStrip tab lei_val)
  if key = "" then none
  else match alGet key lei_index with
    | some idx => df.get? idx
    | none => none

/-- Loop of `process.extractOne` over the candidate names: keep candidates
whose token-sort score reaches the cutoff and return the first one attaining
the maximal score. -/
def extractGo (tab : UTab) (query : String) (cutoff : Nat) :
    List (String × List Nat) → Option (String × Pct) → Option (String × Pct)
  | [], acc => acc
  | (nm, _) :: rest, best =>
    let s := token_sort_ratio tab query nm
    let better := match best with
      | none => decide (pctGeNat s cutoff)
      | some (_, bs) => decide (pctGeNat s cutoff) && decide (pctLt bs s)
    extractGo tab query cutoff rest (if better then some (nm, s) else best)

/-- Function `search_by_name_country`: candidates are the normalized names indexed
under the input's country; `extractOne` with `token_sort_ratio` and
`score_cutoff=threshold`; the returned score is `int(score)`. -/
def search_by_name_country (tab : UTab) (name_norm iso_country : String)
    (name_index : List (String × List (String × List Nat))) (df : List GRow)
    (threshold : Nat := 80) : Option GRow × Nat :=
  if name_norm = "" || iso_country = "" then (none, 0)
  else match alGet iso_country name_index with
    | none => (none, 0)
    | some country_names =>
      if country_names.isEmpty then (none, 0)
      else match extractGo tab name_norm threshold country_names none with
        | none => (none, 0)
        | some (best_name, score) =>
          ((alGet best_name country_names).bind fun idxs => idxs.head?.bind df.get?,
            score.floor)

/-- LEI clause of `_check_lei_discordance`: recorded iff both uppercased
values are present and differ. -/
def leiIssue (tab : UTab) (gleif_row : GRow) (client_lei : String) : Option String :=
  let lei_client := if client_lei ≠ "" then strUpper tab (pyStrip tab client_lei) else ""
  let lei_gleif := strUpper tab (pyStrip tab gleif_row.lei)
  if lei_client ≠ "" && lei_gleif ≠ "" && lei_client ≠ lei_gleif then
    some ("LEI: client=\x27" ++ pyStrip tab client_lei ++ "\x27 ≠ GLEIF=\x27" ++
      gleif_row.lei ++ "\x27")
  else none

/-- RCS clause of `_check_lei_discordance`: normalized forms compared
exactly, recorded when both are nonempty and differ. -/
def rcsIssue (tab : UTab) (gleif_row : GRow) (client_rcs_raw : String) : Option String :=
  let rcs_client := pyStrip tab client_rcs_raw
  if rcs_client ≠ "" then
    let nc := normalize_rcs tab rcs_client
    let ng := normalize_rcs tab gleif_row.ra_entity
    if nc ≠ "" && ng ≠ "" && nc ≠ ng then
      some ("RCS: client=\x27" ++ rcs_client ++ "\x27 ≠ GLEIF=\x27" ++
        gleif_row.ra_entity ++ "\x27")
    else none
  else none

/-- Name clause of `_check_lei_discordance`: token-sort similarity of the
normalized names below the threshold, checked only when both normalized
names are nonempty.  The Python message also interpolates the similarity
percentage (`(similarité=..%)`); that float rendering is left out of the
modeled text, which no property reads. -/
def nameIssue (tab : UTab) (gleif_row : GRow) (client_name_raw : String)
    (name_threshold : Nat) : Option String :=
  let name_client := pyStrip tab client_name_raw
  if name_client ≠ "" then
    let nc := normalize_name tab name_client
    let ng := normalize_name tab gleif_row.name
    if nc ≠ "" && ng ≠ "" then
      let score := token_sort_ratio tab nc ng
      if pctLtNat score name_threshold then
        some ("Nom: client=\x27" ++ name_client ++ "\x27 ≠ GLEIF=\x27" ++
          gleif_row.name ++ "\x27")
      else none
    else none
  else none

/-- Country clause of `_check_lei_discordance`: the resolved client ISO code
(uppercased, unstripped) against the record's stripped uppercased country. -/
def countryIssue (tab : UTab) (gleif_row : GRow) (client_iso : String) : Option String :=
  if client_iso ≠ "" && pyStrip tab client_iso ≠ "" then
    let country_g := strUpper tab (pyStrip tab gleif_row.country)
    if country_g ≠ "" && strUpper tab client_iso ≠ country_g then
      some ("Pays: client=" ++ client_iso ++ " ≠ GLEIF=" ++ country_g)
    else none
  else none

/-- The issue list of `_check_lei_discordance`, in source order LEI, RCS,
Nom, Pays (the sequential conditional `issues.append` calls). -/
def discIssues (tab : UTab) (gleif_row : GRow) (client_rcs_raw client_name_raw
    client_iso client_lei : String) (name_threshold : Nat) : List String :=
  (leiIssue tab gleif_row client_lei).toList ++
    (rcsIssue tab gleif_row client_rcs_raw).toList ++
    (nameIssue tab gleif_row client_name_raw name_threshold).toList ++
    (countryIssue tab gleif_row client_iso).toList

/-- Function `_check_lei_discordance`: the pipe-joined issue text and the "is
discordant" boolean. -/
def _check_lei_discordance (tab : UTab) (gleif_row : GRow) (client_rcs_raw
    client_name_raw client_iso : String) (client_lei : String := "")
    (name_threshold : Nat := 70) : String × Bool :=
  let issues := discIssues tab gleif_row client_rcs_raw client_name_raw
    client_iso client_lei name_threshold
  (String.intercalate " | " issues, !issues.isEmpty)

/-- The heterogeneous `match_score` cell: `""`, a plain number, or the
composite `"RCS:x% / Nom:y%"` string of the approximate-RCS tier (`y`
absent when either normalized name is empty). -/
inductive MScore where
  | blank
  | num (n : Nat)
  | rcsNom (rcs : Nat) (nom : Option Pct)
deriving DecidableEq

/-- One output record of the per-row matching loop: the match-type label,
the score cell, the matched reference row (if any, providing the eight
`GLEIF_*` output columns), and the `LEI_Discordance` text. -/
structure Outcome where
  mtype : String
  score : MScore
  row : Option GRow
  disc : String
deriving DecidableEq

/-- One row of the input spreadsheet, already reduced to the four columns
the caller designates (missing cells are empty strings). -/
structure IRow where
  rcs : String
  name : String
  pays : String
  lei : String
deriving DecidableEq

/-- The parameters of `match_companies` that reach the per-row loop. -/
structure MParams where
  has_lei_col : Bool
  fuzzy_threshold : Nat
  rcs_fuzzy_threshold : Nat
  active_only : Bool
deriving DecidableEq

/-- Default thresholds of `match_companies`. -/
def defaultParams (has_lei_col active_only : Bool) : MParams :=
  { has_lei_col := has_lei_col, fuzzy_threshold := 80,
    rcs_fuzzy_threshold := 88, active_only := active_only }

/-- Tiers 2b and 2c of Discovery Mode (approximate RCS, then name+country),
entered when tier 2a left `gleif_row` at `None`. -/
def tier2bc (tab : UTab) (df : List GRow) (rcs_index : List (String × List Nat))
    (name_index : List (String × List (String × List Nat))) (p : MParams)
    (rcs_norm name_norm iso : String) : Outcome :=
  let step2b : Option (GRow × Nat) :=
    if rcs_norm ≠ "" && decide (0 < p.rcs_fuzzy_threshold) then
      match search_by_rcs_fuzzy rcs_norm rcs_index df p.rcs_fuzzy_threshold with
      | (some r, s) => if p.active_only && !activeOK tab r then none else some (r, s)
      | (none, _) => none
    else none
  match step2b with
  | some (r, rcs_score) =>
    let gl_name_norm := normalize_name tab r.name
    let name_sim : Option Pct :=
      if name_norm ≠ "" && gl_name_norm ≠ "" then
        some (token_sort_ratio tab name_norm gl_name_norm)
      else none
    { mtype := "Approx – RCS", score := .rcsNom rcs_score name_sim,
      row := some r, disc := "" }
  | none =>
    if name_norm ≠ "" then
      match search_by_name_country tab name_norm iso name_index df p.fuzzy_threshold with
      | (some r, score) =>
        if p.active_only && !activeOK tab r then
          { mtype := "Non trouvé", score := .blank, row := none, disc := "" }
        else
          { mtype := "Approx – Nom/Pays", score := .num score, row := some r, disc := "" }
      | (none, _) => { mtype := "Non trouvé", score := .blank, row := none, disc := "" }
    else { mtype := "Non trouvé", score := .blank, row := none, disc := "" }

/-- Discovery Mode (no declared LEI): exact RCS with the in-loop active
check, falling through to `tier2bc` when the id tier yields nothing
acceptable. -/
def matchDiscovery (tab : UTab) (df : List GRow) (rcs_index : List (String × List Nat))
    (name_index : List (String × List (String × List Nat))) (p : MParams)
    (rcs_norm name_norm iso : String) : Outcome :=
  let exactHit : Option GRow :=
    if rcs_norm ≠ "" then
      match search_by_rcs rcs_norm rcs_index df with
      | some r => if p.active_only && !activeOK tab r then none else some r
      | none => none
    else none
  match exactHit with
  | some r => { mtype := "Exact – RCS", score := .num 100, row := some r, disc := "" }
  | none => tier2bc tab df rcs_index name_index p rcs_norm name_norm iso

/-- The fallback search of Validation Mode when the declared LEI is not in
the index: exact RCS, then approximate RCS, then name+country, none of them
status-filtered. -/
def validationFallback (tab : UTab) (df : List GRow)
    (rcs_index : List (String × List Nat))
    (name_index : List (String × List (String × List Nat))) (p : MParams)
    (rcs_norm name_norm iso : String) : Option GRow :=
  let fb : Option GRow :=
    if rcs_norm ≠ "" then
      match search_by_rcs rcs_norm rcs_index df with
      | some r => some r
      | none =>
        if decide (0 < p.rcs_fuzzy_threshold) then
          (search_by_rcs_fuzzy rcs_norm rcs_index df p.rcs_fuzzy_threshold).1
        else none
    else none
  match fb with
  | some r => some r
  | none =>
    if name_norm ≠ "" then
      (search_by_name_country tab name_norm iso name_index df p.fuzzy_threshold).1
    else none

/-- Validation Mode (declared LEI present): direct lookup plus discordance
check; otherwise the unfiltered fallback, with the guaranteed LEI-mismatch
text when the check alone reports nothing. -/
def matchValidation (tab : UTab) (df : List GRow) (rcs_index : List (String × List Nat))
    (name_index : List (String × List (String × List Nat)))
    (lei_index : List (String × Nat)) (p : MParams)
    (rcs_raw name_raw rcs_norm name_norm iso lei_exist : String) : Outcome :=
  match search_by_lei tab lei_exist lei_index df with
  | some gleif_row =>
    let (disc_text, is_disc) :=
      _check_lei_discordance tab gleif_row rcs_raw name_raw iso lei_exist
    if is_disc then
      { mtype := "LEI Discordant", score := .blank, row := some gleif_row, disc := disc_text }
    else
      { mtype := "LEI Valide", score := .blank, row := some gleif_row, disc := disc_text }
  | none =>
    match validationFallback tab df rcs_index name_index p rcs_norm name_norm iso with
    | some fallback_row =>
      let disc0 := (_check_lei_discordance tab fallback_row rcs_raw name_raw iso lei_exist).1
      let disc_text :=
        if disc0 = "" then
          "LEI: client=\x27" ++ lei_exist ++ "\x27 ≠ GLEIF=\x27" ++
            pyStrip tab fallback_row.lei ++ "\x27"
        else disc0
      { mtype := "LEI Discordant", score := .blank, row := some fallback_row,
        disc := disc_text }
    | none =>
      { mtype := "Non trouvé (LEI invalide)", score := .blank, row := none, disc := "" }

/-- One iteration of the matching loop of `match_companies`: strip the four
cells, normalize, and dispatch on the presence of a declared LEI. -/
def matchRow (tab : UTab) (df : List GRow) (idx : Indices) (p : MParams)
    (inp : IRow) : Outcome :=
  let rcs_raw := pyStrip tab inp.rcs
  let name_raw := pyStrip tab inp.name
  let pays_raw := pyStrip tab inp.pays
  let lei_exist := if p.has_lei_col then pyStrip tab inp.lei else ""
  let rcs_norm := normalize_rcs tab rcs_raw
  let name_norm := normalize_name tab name_raw
  let iso := country_to_iso tab pays_raw
  if lei_exist ≠ "" then
    matchValidation tab df idx.rcs_index idx.name_index idx.lei_index p
      rcs_raw name_raw rcs_norm name_norm iso lei_exist
  else
    matchDiscovery tab df idx.rcs_index idx.name_index p rcs_norm name_norm iso

/-- The matching loop over the whole input table. -/
def matchAll (tab : UTab) (df : List GRow) (p : MParams) (inputs : List IRow) :
    List Outcome :=
  inputs.map (matchRow tab df (build_indices tab df) p)

/-- Function `match_companies` (data path): load the reference table — Validation
Mode forces `active_only=False` for the load — then match every input row.
Reading and writing the spreadsheets is outside the model; the result list
is what the exporter receives, one record per input row. -/
def match_companies {α : Type} (tab : UTab) (f : α → GRow) (p : MParams)
    (refChunks : List (List α)) (inputs : List IRow) : List Outcome :=
  let activeLoad := if p.has_lei_col then false else p.active_only
  let df := load_gleif tab f activeLoad refChunks
  matchAll tab df p inputs

/-- Key admissible for the approximate-RCS tier, as the specification
describes it: length within `[n, n+2]` of the input key, containing the
input key as a contiguous substring, and scoring at least the threshold. -/
def admissibleKey (rcs : String) (threshold : Nat) (key : String) : Bool :=
  decide (rcs.length ≤ key.length) && decide (key.length ≤ rcs.length + 2) &&
    strSub rcs key && decide (threshold ≤ pyRound (rcs.length * 100) key.length)

/-- The approximate-RCS score of a candidate key:
`round(100 · len(input) / len(key))`. -/
def keyScore (rcs key : String) : Nat := pyRound (rcs.length * 100) key.length

/-- Specification-side description of the `fuzzyGo` loop: the final score is
the running best joined with the maximum admissible score, and the row is
replaced exactly when some admissible key beats the running best, by the
first key attaining the maximum. -/
def fuzzySpec (rcs : String) (threshold : Nat) (df : List GRow)
    (idx : List (String × List Nat)) (bRow : Option GRow) (bScore : Nat) :
    Option GRow × Nat :=
  let adm := idx.filter fun e => admissibleKey rcs threshold e.1
  let M := (adm.map fun e => keyScore rcs e.1).foldr max 0
  (if bScore < M then
      (adm.find? fun e => decide (keyScore rcs e.1 = M)).bind fun e =>
        e.2.head?.bind df.get?
    else bRow, max bScore M)

/-- Sample reference record used by the concrete scenarios: the spec's
end-to-end entity `{lei:"ABC...", ra_entity:"123456789", name:"ACME",
country:"FR", ACTIVE, ISSUED}`. -/
def rowAcme : GRow :=
  { lei := "ABC00000000000000000"
    name := "ACME"
    country := "FR"
    entity_status := "ACTIVE"
    lei_status := "ISSUED"
    ra_id := "RA000189"
    ra_entity := "123456789"
    renewal_date := "2026-01-01" }

/-- The same entity with `entity_status:"INACTIVE"` (second end-to-end
scenario). -/
def rowAcmeInactive : GRow := { rowAcme with entity_status := "INACTIVE" }

/-- The same entity whose registry id carries a leading zero the client
dropped. -/
def rowAcmeZero : GRow := { rowAcme with ra_entity := "01513210151" }

/-- The same entity registered under country `DE` (country-discordance
scenario). -/
def rowAcmeDE : GRow := { rowAcme with country := "DE" }

/-- Discovery-mode input row of the spec's end-to-end scenarios. -/
def inpAcme : IRow :=
  { rcs := "123456789", name := "ACME SAS", pays := "France", lei := "" }

/-- The same input row declaring the correct LEI. -/
def inpAcmeLei : IRow := { inpAcme with lei := "ABC00000000000000000" }

/-- The same input row declaring a LEI absent from the reference data. -/
def inpAcmeWrongLei : IRow := { inpAcme with lei := "XYZ00000000000000000" }

theorem applyActiveFilter_append (tab : UTab) (b : Bool) (x y : List GRow) :
    applyActiveFilter tab b (x ++ y) =
      applyActiveFilter tab b x ++ applyActiveFilter tab b y := by
  cases b
  · simp [applyActiveFilter]
  · simp [applyActiveFilter, List.filter_append]

theorem load_gleif_eq_finalize {α : Type} (tab : UTab) (f : α → GRow) (b : Bool)
    (chunks : List (List α)) :
    load_gleif tab f b chunks = finalize_gleif_df tab f b chunks.flatten := by
  induction chunks with
  | nil =>
    cases b
    · rfl
    · rfl
  | cons c cs ih =>
    simp only [load_gleif, finalize_gleif_df, List.map_cons, List.flatten_cons,
      List.map_append, applyActiveFilter_append] at *
    simp [processChunk, ih]

/-- C7: chunked loading (per-chunk rename/fill/filter followed by
concatenation with a dense index) returns exactly the table the unchunked
`_finalize_gleif_df` path produces on the whole file: no rows gained, lost,
duplicated or reordered at chunk boundaries, for every chunk decomposition
and either value of the `activeOnly` flag. -/
theorem C7_chunked_load_eq_unchunked {α : Type} (tab : UTab) (f : α → GRow)
    (activeOnly : Bool) (chunks : List (List α)) :
    load_gleif tab f activeOnly chunks =
      finalize_gleif_df tab f activeOnly chunks.flatten :=
  load_gleif_eq_finalize tab f activeOnly chunks

/-- C5: a reference row passes the `activeOnly` filter exactly when its
uppercased `entity_status` is `ACTIVE` and its uppercased `lei_status` is
`ISSUED` (one conjunction), and filtering twice with the same flag equals
filtering once. -/
theorem C5_active_filter :
    (∀ (tab : UTab) (rows : List GRow) (r : GRow),
      r ∈ applyActiveFilter tab true rows ↔
        r ∈ rows ∧ strUpper tab r.entity_status = "ACTIVE" ∧
          strUpper tab r.lei_status = "ISSUED") ∧
    (∀ (tab : UTab) (b : Bool) (rows : List GRow),
      applyActiveFilter tab b (applyActiveFilter tab b rows) =
        applyActiveFilter tab b rows) := by
  constructor
  · intro tab rows r
    simp [applyActiveFilter, List.mem_filter, activeOK]
  · intro tab b rows
    cases b
    · simp [applyActiveFilter]
    · simp only [applyActiveFilter, if_pos]
      rw [List.filter_filter]
      simp

/-- Witness for C5 at a concrete table. -/
theorem C5_active_filter_witness :
    applyActiveFilter asciiTab true (applyActiveFilter asciiTab true [rowAcme]) =
      applyActiveFilter asciiTab true [rowAcme] :=
  C5_active_filter.2 asciiTab true [rowAcme]

/-- C9: `search_by_rcs_fuzzy` returns `(None, 0)` for every input shorter
than 4 characters (the empty string included), whatever the index contents
and the threshold: the approximate-id tier is disabled for short ids. -/
theorem C9_short_input_disabled (rcs_norm : String)
    (rcs_index : List (String × List Nat)) (df : List GRow) (threshold : Nat)
    (h : rcs_norm.length < 4) :
    search_by_rcs_fuzzy rcs_norm rcs_index df threshold = (none, 0) := by
  unfold search_by_rcs_fuzzy
  rw [if_pos]
  simp [h]

/-- Witness for C9. -/
theorem C9_short_input_disabled_witness :
    search_by_rcs_fuzzy "AB1" [("AB1", [0])] [rowAcme] 0 = (none, 0) :=
  C9_short_input_disabled "AB1" [("AB1", [0])] [rowAcme] 0 (by decide)

/-- C10: an input that strips and uppercases to exactly two ASCII letters is
returned as-is by `country_to_iso`, recognized country or not, and
`COUNTRY_MAP` is consulted only when that two-letter test fails.  The
hypothesis records that `str.upper` maps the empty string to itself. -/
theorem C10_two_letter_passthrough (tab : UTab) (hU : tab.upper [] = [])
    (s : String) :
    (isoPat (strUpper tab (pyStrip tab s)) = true →
      country_to_iso tab s = strUpper tab (pyStrip tab s)) ∧
    (pyStrip tab s ≠ "" → isoPat (strUpper tab (pyStrip tab s)) = false →
      country_to_iso tab s =
        (((alGet (String.mk (tab.deMark (tab.lower
              (strUpper tab (pyStrip tab s)).data))) COUNTRY_MAP).orElse
          (fun _ => alGet (String.mk (tab.lower (strUpper tab (pyStrip tab s)).data))
            COUNTRY_MAP)).getD "")) := by
  by_cases hs : pyStrip tab s = ""
  · have hraw : strUpper tab (pyStrip tab s) = "" := by
      rw [hs]
      show String.mk (tab.upper ("" : String).data) = ""
      rw [show ("" : String).data = [] from rfl, hU]
    constructor
    · intro hiso
      rw [hraw] at hiso
      exact absurd hiso (by decide)
    · intro hne
      exact absurd hs hne
  · constructor
    · intro hiso
      unfold country_to_iso
      rw [if_neg hs, if_pos hiso]
    · intro _ hiso
      unfold country_to_iso
      rw [if_neg hs, if_neg (by rw [hiso]; exact Bool.false_ne_true)]

/-- Witness for C10: `"zz"` is not a recognized country yet comes back as
`"ZZ"`. -/
theorem C10_two_letter_passthrough_witness :
    country_to_iso asciiTab "zz" = "ZZ" := by
  have h := (C10_two_letter_passthrough asciiTab rfl "zz").1 (by decide)
  exact h.trans (by decide)

theorem search_by_rcs_nil (x : String) (df : List GRow) :
    search_by_rcs x [] df = none := by
  unfold search_by_rcs
  by_cases h : x = ""
  · simp [h]
  · simp [h, alGet]

theorem search_by_rcs_fuzzy_nil (x : String) (df : List GRow) (t : Nat) :
    search_by_rcs_fuzzy x [] df t = (none, 0) := by
  unfold search_by_rcs_fuzzy
  split
  · rfl
  · rfl

theorem search_by_name_country_nil (tab : UTab) (x iso : String) (df : List GRow)
    (t : Nat) : search_by_name_country tab x iso [] df t = (none, 0) := by
  unfold search_by_name_country
  split
  · rfl
  · rfl

theorem search_by_lei_nil (tab : UTab) (x : String) (df : List GRow) :
    search_by_lei tab x [] df = none := by
  unfold search_by_lei
  dsimp only
  split
  · rfl
  · rfl

theorem matchDiscovery_nil_index (tab : UTab) (df : List GRow) (p : MParams)
    (a b c : String) :
    matchDiscovery tab df [] [] p a b c =
      { mtype := "Non trouvé", score := .blank, row := none, disc := "" } := by
  unfold matchDiscovery tier2bc
  simp [search_by_rcs_nil, search_by_rcs_fuzzy_nil, search_by_name_country_nil]

theorem validationFallback_nil_index (tab : UTab) (df : List GRow) (p : MParams)
    (a b c : String) : validationFallback tab df [] [] p a b c = none := by
  unfold validationFallback
  simp [search_by_rcs_nil, search_by_rcs_fuzzy_nil, search_by_name_country_nil]

theorem matchValidation_nil_index (tab : UTab) (df : List GRow) (p : MParams)
    (r n rn nn iso le : String) :
    matchValidation tab df [] [] [] p r n rn nn iso le =
      { mtype := "Non trouvé (LEI invalide)", score := .blank, row := none,
        disc := "" } := by
  unfold matchValidation
  simp [search_by_lei_nil, validationFallback_nil_index]

theorem build_indices_nil (tab : UTab) :
    build_indices tab [] = { rcs_index := [], name_index := [], lei_index := [] } := rfl

/-- C6: a reference input whose rows all fail the `activeOnly` mask loads to
the empty table rather than raising; the matching loop still emits exactly
one outcome per input row for any table; and on the empty table every
discovery-mode row resolves to `Non trouvé` and every row at all resolves
to `Non trouvé` or `Non trouvé (LEI invalide)` — failure to resolve is a
`MatchOutcome` kind, never an exception (every function of this model is
total). -/
theorem C6_empty_reference_graceful :
    (∀ (α : Type) (tab : UTab) (f : α → GRow) (chunks : List (List α)),
      (∀ r ∈ chunks.flatten.map f, activeOK tab r = false) →
      load_gleif tab f true chunks = []) ∧
    (∀ (tab : UTab) (df : List GRow) (p : MParams) (inputs : List IRow),
      (matchAll tab df p inputs).length = inputs.length) ∧
    (∀ (tab : UTab) (p : MParams) (inp : IRow),
      p.has_lei_col = false ∨ pyStrip tab inp.lei = "" →
      matchRow tab [] (build_indices tab []) p inp =
        { mtype := "Non trouvé", score := .blank, row := none, disc := "" }) ∧
    (∀ (tab : UTab) (p : MParams) (inp : IRow),
      (matchRow tab [] (build_indices tab []) p inp).mtype = "Non trouvé" ∨
      (matchRow tab [] (build_indices tab []) p inp).mtype =
        "Non trouvé (LEI invalide)") := by
  refine ⟨?_, ?_, ?_, ?_⟩
  · intro α tab f chunks h
    rw [load_gleif_eq_finalize]
    unfold finalize_gleif_df applyActiveFilter
    rw [if_pos rfl]
    exact List.filter_eq_nil_iff.mpr fun r hr => by simp [h r hr]
  · intro tab df p inputs
    simp [matchAll]
  · intro tab p inp h
    rw [build_indices_nil]
    unfold matchRow
    have hlei : (if p.has_lei_col then pyStrip tab inp.lei else "") = "" := by
      rcases h with h | h
      · simp [h]
      · simp [h]
    simp only [hlei]
    simp [matchDiscovery_nil_index]
  · intro tab p inp
    rw [build_indices_nil]
    unfold matchRow
    dsimp only
    by_cases hl : (if p.has_lei_col then pyStrip tab inp.lei else "") = ""
    · rw [if_neg (not_not_intro hl), matchDiscovery_nil_index]
      left
      rfl
    · rw [if_pos hl, matchValidation_nil_index]
      right
      rfl

/-- Witness for C6 at concrete data. -/
theorem C6_empty_reference_graceful_witness :
    matchRow asciiTab [] (build_indices asciiTab []) (defaultParams false true)
      inpAcme = { mtype := "Non trouvé", score := .blank, row := none, disc := "" } :=
  C6_empty_reference_graceful.2.2.1 asciiTab (defaultParams false true) inpAcme
    (Or.inl rfl)

theorem mk_data (s : String) : String.mk s.data = s := rfl

theorem dropWhile_false (p : Char → Bool) (l : List Char)
    (h : ∀ c ∈ l, p c = false) : l.dropWhile p = l := by
  cases l with
  | nil => rfl
  | cons c cs => simp [List.dropWhile, h c (List.mem_cons_self c cs)]

theorem pyStripL_all_id (tab : UTab) (l : List Char)
    (h : ∀ c ∈ l, tab.isSpace c = false) : pyStripL tab l = l := by
  unfold pyStripL
  rw [dropWhile_false _ _ h,
    dropWhile_false _ _ (fun c hc => h c (List.mem_reverse.mp hc)),
    List.reverse_reverse]

theorem map_fix (f : Char → Char) (l : List Char) (h : ∀ c ∈ l, f c = c) :
    l.map f = l := by
  induction l with
  | nil => rfl
  | cons c cs ih =>
    simp only [List.map_cons, h c (List.mem_cons_self c cs)]
    rw [ih fun d hd => h d (List.mem_cons_of_mem c hd)]

theorem isUpAlnum_ascii (c : Char) (h : isUpAlnum c = true) : isAsciiCh c = true := by
  simp only [isUpAlnum, isDigitCh, isUpperCh, isAsciiCh, Bool.or_eq_true,
    Bool.and_eq_true, decide_eq_true_eq] at *
  omega

theorem runLen_zero (p : Char → Bool) (l : List Char)
    (h : ∀ c ∈ l, p c = false) : runLen p l = 0 := by
  cases l with
  | nil => rfl
  | cons c cs => simp [runLen, h c (List.mem_cons_self c cs)]

theorem rcsTailMatch_none (tab : UTab) (r : List Char)
    (h : ∀ c ∈ r, tab.isSpace c = false) : rcsTailMatch tab r = none := by
  unfold rcsTailMatch descLens
  rw [runLen_zero _ _ h]
  rfl

theorem stripRcsPre_fix (tab : UTab) (l : List Char)
    (h : ∀ c ∈ l, tab.isSpace c = false) : stripRcsPre tab l = l := by
  unfold stripRcsPre
  by_cases h3 : l.take 3 = ['R', 'C', 'S']
  · rw [if_pos h3, rcsTailMatch_none tab _ fun c hc => h c (List.mem_of_mem_drop hc)]
  · rw [if_neg h3]

theorem normalize_rcs_chars (tab : UTab) (s : String) :
    ∀ c ∈ (normalize_rcs tab s).data, isUpAlnum c = true := by
  unfold normalize_rcs
  split
  · intro c hc
    simp at hc
  · intro c hc
    exact (List.mem_filter.mp hc).2

/-- C8: `normalize_rcs` is idempotent.  The two hypotheses are the needed
facts about the Unicode tables: NFKC followed by `upper` fixes a string of
ASCII uppercase alphanumerics, and no such character is regex whitespace. -/
theorem C8_normalize_rcs_idem (tab : UTab)
    (hN : ∀ l : List Char, (∀ c ∈ l, isUpAlnum c = true) → tab.nfkcUp l = l)
    (hS : ∀ c : Char, isUpAlnum c = true → tab.isSpace c = false)
    (s : String) :
    normalize_rcs tab (normalize_rcs tab s) = normalize_rcs tab s := by
  have hchars := normalize_rcs_chars tab s
  set t := normalize_rcs tab s with ht
  have hnos : ∀ c ∈ t.data, tab.isSpace c = false := fun c hc => hS c (hchars c hc)
  have hstrip : pyStrip tab t = t := by
    unfold pyStrip
    rw [pyStripL_all_id tab _ hnos, mk_data]
  by_cases h0 : t = ""
  · rw [h0]
    rfl
  · show normalize_rcs tab t = t
    unfold normalize_rcs
    rw [if_neg (by rw [hstrip]; exact h0)]
    show String.mk ((pyStripL tab (stripRcsPre tab ((tab.nfkcUp t.data).map fun c =>
      if tab.isNd c && !isAsciiCh c then Char.ofNat (48 + (tab.digitVal c).val)
      else c))).filter isUpAlnum) = t
    rw [hN t.data hchars]
    rw [map_fix _ _ fun c hc => by
      rw [isUpAlnum_ascii c (hchars c hc)]
      simp]
    rw [stripRcsPre_fix tab _ hnos, pyStripL_all_id tab _ hnos,
      List.filter_eq_self.mpr hchars, mk_data]

theorem asciiTab_nfkcUp_fix (l : List Char) (h : ∀ c ∈ l, isUpAlnum c = true) :
    asciiTab.nfkcUp l = l := by
  show l.map asciiUpper = l
  refine map_fix _ _ fun c hc => ?_
  have := h c hc
  simp only [isUpAlnum, isDigitCh, isUpperCh, Bool.or_eq_true, Bool.and_eq_true,
    decide_eq_true_eq] at this
  simp only [asciiUpper, isLowerCh, Bool.and_eq_true, decide_eq_true_eq]
  rw [if_neg]
  simp only [Bool.and_eq_true, decide_eq_true_eq, not_and]
  omega

theorem asciiTab_space_alnum (c : Char) (h : isUpAlnum c = true) :
    asciiTab.isSpace c = false := by
  simp only [isUpAlnum, isDigitCh, isUpperCh, Bool.or_eq_true, Bool.and_eq_true,
    decide_eq_true_eq] at h
  show asciiSpace c = false
  simp only [asciiSpace, Bool.or_eq_false_iff, decide_eq_false_iff_not]
  refine ⟨⟨⟨⟨⟨?_, ?_⟩, ?_⟩, ?_⟩, ?_⟩, ?_⟩ <;>
    · intro he
      rw [he] at h
      exact absurd h (by decide)

/-- Witness for C8 on the docstring's own example id. -/
theorem C8_normalize_rcs_idem_witness :
    normalize_rcs asciiTab (normalize_rcs asciiTab "RCS Paris 552 032 534") =
      normalize_rcs asciiTab "RCS Paris 552 032 534" :=
  C8_normalize_rcs_idem asciiTab asciiTab_nfkcUp_fix asciiTab_space_alnum
    "RCS Paris 552 032 534"

theorem pyRound_ge_div (num den : Nat) : num / den ≤ pyRound num den := by
  unfold pyRound
  dsimp only
  split
  · omega
  · split
    · omega
    · split
      · omega
      · omega

theorem keyScore_pos (rcs key : String) (thr : Nat) (h1 : 1 ≤ rcs.length)
    (hadm : admissibleKey rcs thr key = true) : 1 ≤ keyScore rcs key := by
  have hb := hadm
  unfold admissibleKey at hb
  simp only [Bool.and_eq_true, decide_eq_true_eq] at hb
  obtain ⟨⟨⟨hle, hle2⟩, _⟩, _⟩ := hb
  have hden : 0 < key.length := by omega
  have hnum : key.length ≤ rcs.length * 100 := by omega
  have := pyRound_ge_div (rcs.length * 100) key.length
  have : 1 ≤ rcs.length * 100 / key.length := (Nat.one_le_div_iff hden).mpr hnum
  unfold keyScore
  omega

theorem foldr_max_of_mem (x : Nat) (l : List Nat) (h : x ∈ l) :
    x ≤ l.foldr max 0 := by
  induction l with
  | nil => simp at h
  | cons a t ih =>
    rcases List.mem_cons.mp h with rfl | h
    · simp only [List.foldr_cons]
      omega
    · have := ih h
      simp only [List.foldr_cons]
      omega

theorem fuzzyGo_spec_eq (rcs : String) (df : List GRow) (thr : Nat)
    (idx : List (String × List Nat)) (bRow : Option GRow) (bScore : Nat) :
    fuzzyGo rcs df thr idx (bRow, bScore) = fuzzySpec rcs thr df idx bRow bScore := by
  induction idx generalizing bRow bScore with
  | nil => simp [fuzzyGo, fuzzySpec]
  | cons e rest ih =>
    obtain ⟨key, idxs⟩ := e
    simp only [fuzzyGo]
    by_cases h1 : key.length < rcs.length ∨ 2 < key.length - rcs.length
    · have hc : (decide (key.length < rcs.length) ||
          decide (2 < key.length - rcs.length)) = true := by
        rcases h1 with h | h
        · simp [h]
        · simp [h]
      rw [if_pos hc, ih]
      have hadm : admissibleKey rcs thr key = false := by
        unfold admissibleKey
        rcases h1 with h | h
        · have hd : decide (rcs.length ≤ key.length) = false := by
            simp only [decide_eq_false_iff_not]
            omega
          simp [hd]
        · by_cases h2 : key.length < rcs.length
          · have hd : decide (rcs.length ≤ key.length) = false := by
              simp only [decide_eq_false_iff_not]
              omega
            simp [hd]
          · have hd : decide (key.length ≤ rcs.length + 2) = false := by
              simp only [decide_eq_false_iff_not]
              omega
            simp [hd]
      simp [fuzzySpec, List.filter_cons, hadm]
    · push_neg at h1
      obtain ⟨hge, hdiff⟩ := h1
      have hc : (decide (key.length < rcs.length) ||
          decide (2 < key.length - rcs.length)) = false := by
        simp only [Bool.or_eq_false_iff, decide_eq_false_iff_not]
        omega
      rw [if_neg (by rw [hc]; exact Bool.false_ne_true)]
      by_cases hsub : strSub rcs key = true
      · rw [if_pos hsub]
        by_cases hthr : thr ≤ pyRound (rcs.length * 100) key.length
        · have hadm : admissibleKey rcs thr key = true := by
            unfold admissibleKey
            simp only [Bool.and_eq_true, decide_eq_true_eq]
            exact ⟨⟨⟨hge, by omega⟩, hsub⟩, hthr⟩
          by_cases hupd : bScore < pyRound (rcs.length * 100) key.length
          · rw [if_pos (by simp [hthr, hupd]), ih]
            simp only [fuzzySpec, List.filter_cons, hadm, if_true, List.map_cons,
              List.foldr_cons]
            have hks : keyScore rcs key = pyRound (rcs.length * 100) key.length := rfl
            simp only [Prod.mk.injEq]
            set M' := ((rest.filter fun e => admissibleKey rcs thr e.1).map
              fun e => keyScore rcs e.1).foldr max 0 with hM'
            set s := pyRound (rcs.length * 100) key.length with hsdef
            constructor
            · by_cases hlt : s < M'
              · rw [if_pos hlt, if_pos (by rw [hks]; omega)]
                rw [List.find?_cons_of_neg]
                · rw [hks]
                  have : max s M' = M' := by omega
                  rw [this]
                · rw [hks]
                  simp only [decide_eq_true_eq]
                  omega
              · rw [if_neg hlt, if_pos (by rw [hks]; omega)]
                rw [List.find?_cons_of_pos]
                · simp
                · rw [hks]
                  simp only [decide_eq_true_eq]
                  omega
            · rw [hks]
              omega
          · rw [if_neg (by simp [hupd]), ih]
            simp only [fuzzySpec, List.filter_cons, hadm, if_true, List.map_cons,
              List.foldr_cons]
            have hks : keyScore rcs key = pyRound (rcs.length * 100) key.length := rfl
            simp only [Prod.mk.injEq]
            set M' := ((rest.filter fun e => admissibleKey rcs thr e.1).map
              fun e => keyScore rcs e.1).foldr max 0 with hM'
            set s := pyRound (rcs.length * 100) key.length with hsdef
            constructor
            · by_cases hb : bScore < M'
              · rw [if_pos hb, if_pos (by rw [hks]; omega)]
                rw [List.find?_cons_of_neg]
                · rw [hks]
                  have : max s M' = M' := by omega
                  rw [this]
                · rw [hks]
                  simp only [decide_eq_true_eq]
                  omega
              · rw [if_neg hb, if_neg (by rw [hks]; omega)]
            · rw [hks]
              omega
        · rw [if_neg (by simp [hthr]), ih]
          have hadm : admissibleKey rcs thr key = false := by
            unfold admissibleKey
            have hd : decide (thr ≤ pyRound (rcs.length * 100) key.length) = false := by
              simp only [decide_eq_false_iff_not]
              exact hthr
            simp [keyScore, hd]
          simp [fuzzySpec, List.filter_cons, hadm]
      · rw [if_neg hsub, ih]
        have hadm : admissibleKey rcs thr key = false := by
          unfold admissibleKey
          simp only [Bool.eq_false_iff] at hsub
          simp [hsub]
        simp [fuzzySpec, List.filter_cons, hadm]

/-- C3 counterexample: the key `"123"` is admissible under the claim's
acceptance criterion for input `"123"` (length within `[3, 5]`, containment
holds, score `100 ≥ 88`), yet `search_by_rcs_fuzzy` returns `(None, 0)`
because of the minimum-length cutoff the claim omits. -/
theorem C3_counterexample :
    admissibleKey "123" 88 "123" = true ∧ keyScore "123" "123" = 100 ∧
    search_by_rcs_fuzzy "123" [("123", [0])] [rowAcme] 88 = (none, 0) := by
  refine ⟨by decide, by decide, ?_⟩
  decide

/-- C3 (amended with the length-4 cutoff): for inputs of length at least 4,
the approximate-id tier accepts exactly the index keys whose length lies in
`[n, n+2]`, that contain the input contiguously, and whose rounded score
`100·n/len(key)` reaches the threshold; the reported score is the maximum
admissible score and the returned row is the first key attaining it
(insertion order, ties to the first).  Concretely, `"1513210151"` against
`"01513210151"` scores `91 ≥ 88` and yields kind `Approx – RCS`. -/
theorem C3_approx_id_tier :
    (∀ (rcs : String) (idx : List (String × List Nat)) (df : List GRow) (thr : Nat),
      4 ≤ rcs.length →
      search_by_rcs_fuzzy rcs idx df thr =
        (((idx.filter fun e => admissibleKey rcs thr e.1).find? fun e =>
            decide (keyScore rcs e.1 =
              ((idx.filter fun e => admissibleKey rcs thr e.1).map fun e =>
                keyScore rcs e.1).foldr max 0)).bind
          (fun e => e.2.head?.bind df.get?),
         ((idx.filter fun e => admissibleKey rcs thr e.1).map fun e =>
           keyScore rcs e.1).foldr max 0)) ∧
    search_by_rcs_fuzzy "1513210151" [("01513210151", [0])] [rowAcmeZero] 88 =
      (some rowAcmeZero, 91) ∧
    matchRow asciiTab [rowAcmeZero] (build_indices asciiTab [rowAcmeZero])
      (defaultParams false true)
      { rcs := "1513210151", name := "", pays := "", lei := "" } =
      { mtype := "Approx – RCS", score := .rcsNom 91 none, row := some rowAcmeZero,
        disc := "" } := by
  refine ⟨?_, by decide, by decide⟩
  intro rcs idx df thr h4
  have hne : rcs ≠ "" := by
    intro h
    rw [h] at h4
    exact absurd h4 (by decide)
  have hcond : (decide (rcs = "") || decide (rcs.length < 4)) = false := by
    simp only [Bool.or_eq_false_iff, decide_eq_false_iff_not]
    exact ⟨hne, by omega⟩
  unfold search_by_rcs_fuzzy
  rw [if_neg (by rw [hcond]; exact Bool.false_ne_true), fuzzyGo_spec_eq]
  unfold fuzzySpec
  simp only [Prod.mk.injEq]
  constructor
  · by_cases hM : 0 < ((idx.filter fun e => admissibleKey rcs thr e.1).map fun e =>
        keyScore rcs e.1).foldr max 0
    · rw [if_pos hM]
    · rw [if_neg hM]
      have hnil : idx.filter (fun e => admissibleKey rcs thr e.1) = [] := by
        rcases h : idx.filter (fun e => admissibleKey rcs thr e.1) with _ | ⟨a, t⟩
        · exact h
        · exfalso
          have ha : a ∈ idx.filter (fun e => admissibleKey rcs thr e.1) := by
            rw [h]
            exact List.mem_cons_self a t
          have hadm := (List.mem_filter.mp ha).2
          have h1 := keyScore_pos rcs a.1 thr (by omega) hadm
          have h2 : keyScore rcs a.1 ∈ (idx.filter fun e =>
              admissibleKey rcs thr e.1).map fun e => keyScore rcs e.1 :=
            List.mem_map_of_mem _ ha
          have := foldr_max_of_mem _ _ h2
          omega
      rw [hnil]
      rfl
  · omega

/-- Witness for C3: the amended characterization applied to the concrete
leading-zero example. -/
theorem C3_approx_id_tier_witness :
    search_by_rcs_fuzzy "1513210151" [("01513210151", [0])] [rowAcmeZero] 88 =
      (some rowAcmeZero, 91) :=
  (C3_approx_id_tier.1 "1513210151" [("01513210151", [0])] [rowAcmeZero] 88
    (by decide)).trans (by decide)

theorem search_by_rcs_ne_empty (rcs_norm : String) (rcsI : List (String × List Nat))
    (df : List GRow) (r : GRow) (h : search_by_rcs rcs_norm rcsI df = some r) :
    rcs_norm ≠ "" := by
  intro he
  rw [he] at h
  unfold search_by_rcs at h
  simp at h

/-- C1: in Discovery Mode the tiers are a strict cascade.  (i) A row whose
normalized id hits the exact-id index with a record passing the active
filter yields `Exact – RCS` with score 100, for every name index and
whatever the fuzzy tiers would say; (ii) when the exact hit fails the
ACTIVE+ISSUED check under `activeOnly`, the result is exactly that of the
later tiers (`tier2bc`); (iii) the end-to-end scenario with the matching
entity INACTIVE and `activeOnly=true` yields `Non trouvé`, and (iv) the
ACTIVE variant yields `Exact – RCS` with score 100. -/
theorem C1_discovery_cascade :
    (∀ (tab : UTab) (df : List GRow) (rcsI : List (String × List Nat))
        (nameI : List (String × List (String × List Nat))) (p : MParams)
        (rcs_norm name_norm iso : String) (r : GRow),
      search_by_rcs rcs_norm rcsI df = some r →
      (p.active_only = true → activeOK tab r = true) →
      matchDiscovery tab df rcsI nameI p rcs_norm name_norm iso =
        { mtype := "Exact – RCS", score := .num 100, row := some r, disc := "" }) ∧
    (∀ (tab : UTab) (df : List GRow) (rcsI : List (String × List Nat))
        (nameI : List (String × List (String × List Nat))) (p : MParams)
        (rcs_norm name_norm iso : String) (r : GRow),
      p.active_only = true → search_by_rcs rcs_norm rcsI df = some r →
      activeOK tab r = false →
      matchDiscovery tab df rcsI nameI p rcs_norm name_norm iso =
        tier2bc tab df rcsI nameI p rcs_norm name_norm iso) ∧
    match_companies asciiTab id (defaultParams false true) [[rowAcmeInactive]]
        [inpAcme] =
      [{ mtype := "Non trouvé", score := .blank, row := none, disc := "" }] ∧
    match_companies asciiTab id (defaultParams false true) [[rowAcme]] [inpAcme] =
      [{ mtype := "Exact – RCS", score := .num 100, row := some rowAcme, disc := "" }]
    := by
  refine ⟨?_, ?_, by decide, by decide⟩
  · intro tab df rcsI nameI p rcs_norm name_norm iso r hs hok
    have hne := search_by_rcs_ne_empty rcs_norm rcsI df r hs
    have hcond : (p.active_only && !activeOK tab r) = false := by
      cases hao : p.active_only
      · rfl
      · rw [hok hao]
        rfl
    unfold matchDiscovery
    rw [if_pos hne, hs]
    simp [hcond]
  · intro tab df rcsI nameI p rcs_norm name_norm iso r hao hs hbad
    have hne := search_by_rcs_ne_empty rcs_norm rcsI df r hs
    have hcond : (p.active_only && !activeOK tab r) = true := by
      rw [hao, hbad]
      rfl
    unfold matchDiscovery
    rw [if_pos hne, hs]
    simp [hcond]

/-- Witness for C1: the exact-id tier fires at the concrete scenario data
for every name index (here an empty one). -/
theorem C1_discovery_cascade_witness :
    matchDiscovery asciiTab [rowAcme] [("123456789", [0])] []
      (defaultParams false true) "123456789" "ACME" "FR" =
      { mtype := "Exact – RCS", score := .num 100, row := some rowAcme,
        disc := "" } :=
  C1_discovery_cascade.1 asciiTab [rowAcme] [("123456789", [0])] []
    (defaultParams false true) "123456789" "ACME" "FR" rowAcme (by decide)
    (fun _ => by decide)

theorem intercalate_singleton (sep a : String) : String.intercalate sep [a] = a := rfl

theorem lei_clause_split (x y : String) :
    "LEI: client=\x27" ++ x ++ "\x27 ≠ GLEIF=\x27" ++ y ++ "\x27" =
      "LEI:" ++ (" client=\x27" ++ x ++ "\x27 ≠ GLEIF=\x27" ++ y ++ "\x27") := by
  apply String.ext
  simp only [String.data_append]
  simp only [← List.append_assoc]
  rfl

/-- C2: in Validation Mode with a declared LEI absent from the LEI index,
a record located by the exact-id / approximate-id / name+country fallback
yields kind `LEI Discordant`, and when registration id, name and country
raise no issue of their own the discordance text still opens with a
LEI-mismatch clause; when no fallback tier locates a record the outcome is
the LeiUnknown kind `Non trouvé (LEI invalide)`. -/
theorem C2_validation_fallback :
    (∀ (tab : UTab) (df : List GRow) (idx : Indices) (p : MParams) (inp : IRow)
        (r : GRow),
      p.has_lei_col = true →
      pyStrip tab inp.lei ≠ "" →
      search_by_lei tab (pyStrip tab inp.lei) idx.lei_index df = none →
      validationFallback tab df idx.rcs_index idx.name_index p
        (normalize_rcs tab (pyStrip tab inp.rcs))
        (normalize_name tab (pyStrip tab inp.name))
        (country_to_iso tab (pyStrip tab inp.pays)) = some r →
      (matchRow tab df idx p inp).mtype = "LEI Discordant" ∧
      (rcsIssue tab r (pyStrip tab inp.rcs) = none →
       nameIssue tab r (pyStrip tab inp.name) 70 = none →
       countryIssue tab r (country_to_iso tab (pyStrip tab inp.pays)) = none →
       ∃ t : String, (matchRow tab df idx p inp).disc = "LEI:" ++ t)) ∧
    (∀ (tab : UTab) (df : List GRow) (idx : Indices) (p : MParams) (inp : IRow),
      p.has_lei_col = true →
      pyStrip tab inp.lei ≠ "" →
      search_by_lei tab (pyStrip tab inp.lei) idx.lei_index df = none →
      validationFallback tab df idx.rcs_index idx.name_index p
        (normalize_rcs tab (pyStrip tab inp.rcs))
        (normalize_name tab (pyStrip tab inp.name))
        (country_to_iso tab (pyStrip tab inp.pays)) = none →
      matchRow tab df idx p inp =
        { mtype := "Non trouvé (LEI invalide)", score := .blank, row := none,
          disc := "" }) := by
  constructor
  · intro tab df idx p inp r hcol hne hlook hfb
    have hle : (if p.has_lei_col = true then pyStrip tab inp.lei else "") =
        pyStrip tab inp.lei := by
      rw [hcol]
      rfl
    have hrow : matchRow tab df idx p inp =
        matchValidation tab df idx.rcs_index idx.name_index idx.lei_index p
          (pyStrip tab inp.rcs) (pyStrip tab inp.name)
          (normalize_rcs tab (pyStrip tab inp.rcs))
          (normalize_name tab (pyStrip tab inp.name))
          (country_to_iso tab (pyStrip tab inp.pays)) (pyStrip tab inp.lei) := by
      unfold matchRow
      dsimp only
      rw [hle, if_pos hne]
    rw [hrow]
    unfold matchValidation
    rw [hlook, hfb]
    dsimp only
    constructor
    · rfl
    · intro h1 h2 h3
      unfold _check_lei_discordance discIssues
      rw [h1, h2, h3]
      dsimp only
      rcases hl : leiIssue tab r (pyStrip tab inp.lei) with _ | s
      · simp only [Option.toList, List.append_nil, List.nil_append]
        rw [show String.intercalate " | " ([] : List String) = "" from rfl,
          if_pos rfl]
        exact ⟨" client=\x27" ++ pyStrip tab inp.lei ++ "\x27 ≠ GLEIF=\x27" ++
          pyStrip tab r.lei ++ "\x27", lei_clause_split _ _⟩
      · simp only [Option.toList, List.append_nil, List.nil_append]
        rw [intercalate_singleton]
        by_cases hse : s = ""
        · rw [if_pos hse]
          exact ⟨" client=\x27" ++ pyStrip tab inp.lei ++ "\x27 ≠ GLEIF=\x27" ++
            pyStrip tab r.lei ++ "\x27", lei_clause_split _ _⟩
        · rw [if_neg hse]
          have hs : s = "LEI: client=\x27" ++ pyStrip tab (pyStrip tab inp.lei) ++
              "\x27 ≠ GLEIF=\x27" ++ r.lei ++ "\x27" := by
            unfold leiIssue at hl
            dsimp only at hl
            rw [if_pos hne] at hl
            split at hl
            · exact (Option.some.inj hl).symm
            · exact absurd hl (by simp)
          exact ⟨" client=\x27" ++ pyStrip tab (pyStrip tab inp.lei) ++
            "\x27 ≠ GLEIF=\x27" ++ r.lei ++ "\x27", hs.trans (lei_clause_split _ _)⟩
  · intro tab df idx p inp hcol hne hlook hfb
    have hle : (if p.has_lei_col = true then pyStrip tab inp.lei else "") =
        pyStrip tab inp.lei := by
      rw [hcol]
      rfl
    have hrow : matchRow tab df idx p inp =
        matchValidation tab df idx.rcs_index idx.name_index idx.lei_index p
          (pyStrip tab inp.rcs) (pyStrip tab inp.name)
          (normalize_rcs tab (pyStrip tab inp.rcs))
          (normalize_name tab (pyStrip tab inp.name))
          (country_to_iso tab (pyStrip tab inp.pays)) (pyStrip tab inp.lei) := by
      unfold matchRow
      dsimp only
      rw [hle, if_pos hne]
    rw [hrow]
    unfold matchValidation
    rw [hlook, hfb]

/-- Witness for C2 at the concrete wrong-LEI scenario. -/
theorem C2_validation_fallback_witness :
    (matchRow asciiTab [rowAcme] (build_indices asciiTab [rowAcme])
      (defaultParams true true) inpAcmeWrongLei).mtype = "LEI Discordant" :=
  (C2_validation_fallback.1 asciiTab [rowAcme] (build_indices asciiTab [rowAcme])
    (defaultParams true true) inpAcmeWrongLei rowAcme rfl (by decide) (by decide)
    (by decide)).1

theorem pctLtNat_iff_toQ (p : Pct) (t : Nat) (h : 0 < p.den) :
    pctLtNat p t ↔ p.toQ < (t : ℚ) := by
  unfold pctLtNat Pct.toQ
  rw [div_lt_iff₀ (by exact_mod_cast h)]
  constructor
  · intro hlt
    exact_mod_cast hlt
  · intro hlt
    exact_mod_cast hlt

theorem pctGeNat_iff_toQ (p : Pct) (t : Nat) (h : 0 < p.den) :
    pctGeNat p t ↔ (t : ℚ) ≤ p.toQ := by
  unfold pctGeNat Pct.toQ
  rw [le_div_iff₀ (by exact_mod_cast h)]
  constructor
  · intro hle
    exact_mod_cast hle
  · intro hle
    exact_mod_cast hle

theorem pctLt_iff_toQ (a b : Pct) (ha : 0 < a.den) (hb : 0 < b.den) :
    pctLt a b ↔ a.toQ < b.toQ := by
  unfold pctLt Pct.toQ
  rw [div_lt_div_iff₀ (by exact_mod_cast ha) (by exact_mod_cast hb)]
  constructor
  · intro hlt
    exact_mod_cast hlt
  · intro hlt
    exact_mod_cast hlt

theorem strUpper_empty (tab : UTab) (hU : tab.upper [] = []) :
    strUpper tab "" = "" := by
  show String.mk (tab.upper ("" : String).data) = ""
  rw [show ("" : String).data = [] from rfl, hU]

theorem leiIssue_isSome_iff (tab : UTab) (hU : tab.upper [] = []) (row : GRow)
    (lei : String) :
    (leiIssue tab row lei).isSome = true ↔
      (strUpper tab (pyStrip tab lei) ≠ "" ∧ strUpper tab (pyStrip tab row.lei) ≠ "" ∧
        strUpper tab (pyStrip tab lei) ≠ strUpper tab (pyStrip tab row.lei)) := by
  unfold leiIssue
  dsimp only
  by_cases hl : lei = ""
  · rw [if_neg (by simp [hl])]
    have h0 : strUpper tab (pyStrip tab lei) = "" := by
      rw [hl, show pyStrip tab "" = "" from rfl]
      exact strUpper_empty tab hU
    simp [h0]
  · rw [if_pos hl]
    by_cases hb : (decide (strUpper tab (pyStrip tab lei) ≠ "") &&
        decide (strUpper tab (pyStrip tab row.lei) ≠ "") &&
        decide (strUpper tab (pyStrip tab lei) ≠ strUpper tab (pyStrip tab row.lei)))
        = true
    · rw [if_pos hb]
      simp only [Bool.and_eq_true, decide_eq_true_eq] at hb
      simp only [Option.isSome_some, true_iff]
      exact ⟨hb.1.1, hb.1.2, hb.2⟩
    · rw [if_neg hb]
      simp only [Option.isSome_none, Bool.false_eq_true, false_iff]
      intro hc
      exact hb (by
        simp only [Bool.and_eq_true, decide_eq_true_eq]
        exact ⟨⟨hc.1, hc.2.1⟩, hc.2.2⟩)

theorem rcsIssue_isSome_iff (tab : UTab) (row : GRow) (rcs : String) :
    (rcsIssue tab row rcs).isSome = true ↔
      (normalize_rcs tab (pyStrip tab rcs) ≠ "" ∧
        normalize_rcs tab row.ra_entity ≠ "" ∧
        normalize_rcs tab (pyStrip tab rcs) ≠ normalize_rcs tab row.ra_entity) := by
  unfold rcsIssue
  dsimp only
  by_cases hg : pyStrip tab rcs = ""
  · rw [if_neg (by simp [hg])]
    rw [hg]
    simp [show normalize_rcs tab "" = "" from rfl]
  · rw [if_pos hg]
    by_cases hb : (decide (normalize_rcs tab (pyStrip tab rcs) ≠ "") &&
        decide (normalize_rcs tab row.ra_entity ≠ "") &&
        decide (normalize_rcs tab (pyStrip tab rcs) ≠ normalize_rcs tab row.ra_entity))
        = true
    · rw [if_pos hb]
      simp only [Bool.and_eq_true, decide_eq_true_eq] at hb
      simp only [Option.isSome_some, true_iff]
      exact ⟨hb.1.1, hb.1.2, hb.2⟩
    · rw [if_neg hb]
      simp only [Option.isSome_none, Bool.false_eq_true, false_iff]
      intro hc
      exact hb (by
        simp only [Bool.and_eq_true, decide_eq_true_eq]
        exact ⟨⟨hc.1, hc.2.1⟩, hc.2.2⟩)

theorem nameIssue_isSome_iff (tab : UTab) (row : GRow) (name : String) (thr : Nat) :
    (nameIssue tab row name thr).isSome = true ↔
      (normalize_name tab (pyStrip tab name) ≠ "" ∧
        normalize_name tab row.name ≠ "" ∧
        pctLtNat (token_sort_ratio tab (normalize_name tab (pyStrip tab name))
          (normalize_name tab row.name)) thr) := by
  unfold nameIssue
  dsimp only
  by_cases hg : pyStrip tab name = ""
  · rw [if_neg (by simp [hg])]
    rw [hg]
    simp [show normalize_name tab "" = "" from rfl]
  · rw [if_pos hg]
    by_cases hb : (decide (normalize_name tab (pyStrip tab name) ≠ "") &&
        decide (normalize_name tab row.name ≠ "")) = true
    · rw [if_pos hb]
      simp only [Bool.and_eq_true, decide_eq_true_eq] at hb
      by_cases hsc : pctLtNat (token_sort_ratio tab (normalize_name tab
          (pyStrip tab name)) (normalize_name tab row.name)) thr
      · rw [if_pos hsc]
        simp only [Option.isSome_some, true_iff]
        exact ⟨hb.1, hb.2, hsc⟩
      · rw [if_neg hsc]
        simp only [Option.isSome_none, Bool.false_eq_true, false_iff]
        intro hc
        exact hsc hc.2.2
    · rw [if_neg hb]
      simp only [Option.isSome_none, Bool.false_eq_true, false_iff]
      intro hc
      exact hb (by
        simp only [Bool.and_eq_true, decide_eq_true_eq]
        exact ⟨hc.1, hc.2.1⟩)

theorem countryIssue_isSome_iff (tab : UTab) (row : GRow) (iso : String) :
    (countryIssue tab row iso).isSome = true ↔
      (pyStrip tab iso ≠ "" ∧ strUpper tab (pyStrip tab row.country) ≠ "" ∧
        strUpper tab iso ≠ strUpper tab (pyStrip tab row.country)) := by
  unfold countryIssue
  dsimp only
  by_cases hg : pyStrip tab iso = ""
  · rw [if_neg (by simp [hg])]
    simp [hg]
  · have hiso : iso ≠ "" := by
      intro he
      rw [he] at hg
      exact hg rfl
    rw [if_pos (by simp [hiso, hg])]
    by_cases hb : (decide (strUpper tab (pyStrip tab row.country) ≠ "") &&
        decide (strUpper tab iso ≠ strUpper tab (pyStrip tab row.country))) = true
    · rw [if_pos hb]
      simp only [Bool.and_eq_true, decide_eq_true_eq] at hb
      simp only [Option.isSome_some, true_iff]
      exact ⟨hg, hb.1, hb.2⟩
    · rw [if_neg hb]
      simp only [Option.isSome_none, Bool.false_eq_true, false_iff]
      intro hc
      exact hb (by
        simp only [Bool.and_eq_true, decide_eq_true_eq]
        exact ⟨hc.2.1, hc.2.2⟩)

/-- C4 counterexample: with client name `"."` (which normalizes to the empty
string) against reference name `"ACME"`, the token-sort similarity `0` is
below the threshold `70`, yet no name mismatch is recorded — the claim's
"name mismatch iff similarity below the threshold" omits the requirement
that both normalized names be nonempty. -/
theorem C4_counterexample :
    nameIssue asciiTab rowAcme "." 70 = none ∧
    pctLtNat (token_sort_ratio asciiTab (normalize_name asciiTab (pyStrip asciiTab "."))
      (normalize_name asciiTab rowAcme.name)) 70 := by
  constructor
  · decide
  · decide

/-- C4 (amended: the name clause additionally requires both normalized
names nonempty): each field raises exactly one discrepancy under the stated
conditions — LEI iff both uppercased values present and unequal, id iff
both normalized forms nonempty and unequal, name iff both normalized names
nonempty and similarity below the threshold, country iff both present and
unequal after uppercasing; the boolean is true iff at least one issue
exists and no issue yields `("", false)`; a direct LEI hit with all fields
agreeing yields `LEI Valide` with empty text, and one where only the
country differs yields `LEI Discordant` whose text is exactly the country
clause. -/
theorem C4_discordance_check :
    (∀ (tab : UTab), tab.upper [] = [] →
      ∀ (row : GRow) (rcs name iso lei : String) (thr : Nat),
      ((leiIssue tab row lei).isSome = true ↔
        (strUpper tab (pyStrip tab lei) ≠ "" ∧
          strUpper tab (pyStrip tab row.lei) ≠ "" ∧
          strUpper tab (pyStrip tab lei) ≠ strUpper tab (pyStrip tab row.lei))) ∧
      ((rcsIssue tab row rcs).isSome = true ↔
        (normalize_rcs tab (pyStrip tab rcs) ≠ "" ∧
          normalize_rcs tab row.ra_entity ≠ "" ∧
          normalize_rcs tab (pyStrip tab rcs) ≠ normalize_rcs tab row.ra_entity)) ∧
      ((nameIssue tab row name thr).isSome = true ↔
        (normalize_name tab (pyStrip tab name) ≠ "" ∧
          normalize_name tab row.name ≠ "" ∧
          pctLtNat (token_sort_ratio tab (normalize_name tab (pyStrip tab name))
            (normalize_name tab row.name)) thr)) ∧
      ((countryIssue tab row iso).isSome = true ↔
        (pyStrip tab iso ≠ "" ∧ strUpper tab (pyStrip tab row.country) ≠ "" ∧
          strUpper tab iso ≠ strUpper tab (pyStrip tab row.country))) ∧
      ((_check_lei_discordance tab row rcs name iso lei thr).2 = true ↔
        discIssues tab row rcs name iso lei thr ≠ []) ∧
      (discIssues tab row rcs name iso lei thr = [] →
        _check_lei_discordance tab row rcs name iso lei thr = ("", false))) ∧
    matchRow asciiTab [rowAcme] (build_indices asciiTab [rowAcme])
      (defaultParams true true) inpAcmeLei =
      { mtype := "LEI Valide", score := .blank, row := some rowAcme, disc := "" } ∧
    matchRow asciiTab [rowAcmeDE] (build_indices asciiTab [rowAcmeDE])
      (defaultParams true true) inpAcmeLei =
      { mtype := "LEI Discordant", score := .blank, row := some rowAcmeDE,
        disc := "Pays: client=FR ≠ GLEIF=DE" } := by
  refine ⟨?_, by decide, by decide⟩
  intro tab hU row rcs name iso lei thr
  refine ⟨leiIssue_isSome_iff tab hU row lei, rcsIssue_isSome_iff tab row rcs,
    nameIssue_isSome_iff tab row name thr, countryIssue_isSome_iff tab row iso,
    ?_, ?_⟩
  · unfold _check_lei_discordance
    dsimp only
    rw [Bool.not_eq_true']
    constructor
    · intro h hc
      rw [hc] at h
      exact absurd h (by decide)
    · intro h
      rw [Bool.eq_false_iff]
      intro hc
      exact h (List.isEmpty_iff.mp hc)
  · intro h
    unfold _check_lei_discordance
    rw [h]
    rfl

/-- Witness for C4: the amended conditions applied at the concrete
country-discordance data. -/
theorem C4_discordance_check_witness :
    (countryIssue asciiTab rowAcmeDE "FR").isSome = true ↔
      (pyStrip asciiTab "FR" ≠ "" ∧
        strUpper asciiTab (pyStrip asciiTab rowAcmeDE.country) ≠ "" ∧
        strUpper asciiTab "FR" ≠ strUpper asciiTab (pyStrip asciiTab rowAcmeDE.country)) :=
  ((C4_discordance_check.1 asciiTab rfl rowAcmeDE "123456789" "ACME" "FR"
    "ABC00000000000000000" 70).2.2.2.1)

end Gleif
